import Mathlib

/-!
Shallow embedding of the `unsat-backend` roster service.

The repository has two variants of the same Express server over the
Google Drive v3 API:
* `src/server.js` — "discovered root": the root container is the folder
  named `UNSAT-SCHOOLS`, located by a drive-wide search
  (`getRootFolderId`), failing when absent.
* `src/unnamed/part_000` — "configured root": the shared drive itself is
  the root (`getDriveRootId` returns the configured `SHARED_DRIVE_ID`),
  and school folders are found by a drive-wide name search
  (`getOrCreateSchoolFolder`).

The remote store is modelled as a list of entries (files and folders) in
creation order, with `Nat` identifiers handed out by a counter.  Each
`drive.files.list` call in the source becomes a `List.filter` with
exactly the predicate of its `q` string; `drive.files.create` appends a
fresh entry; `drive.files.delete` removes the entry with the given id.
File content is kept as the JSON value itself: the source stores
`JSON.stringify(data)` and reads it back with `responseType: "json"`,
and that serialisation round-trips on JSON values, so the string step is
elided.  JavaScript numbers are modelled as `Int` (no claim depends on
non-integer numerics).
-/

/-- JSON values as delivered by the `express.json()` body parser and the
drive client's `responseType: "json"`. -/
inductive Json where
  | null : Json
  | bool : Bool → Json
  | num : Int → Json
  | str : String → Json
  | arr : List Json → Json
  | obj : List (String × Json) → Json

/-- Field access after destructuring `const {k} = body`: `none` plays the
role of JavaScript `undefined` (field absent or body not an object). -/
def lookupField : Json → String → Option Json
  | Json.obj kvs, key => (kvs.find? (fun kv => kv.1 == key)).map (fun kv => kv.2)
  | _, _ => none

/-- JavaScript truthiness of a JSON value (`!x` in the source's
validation check is the negation of this). -/
def truthy : Json → Bool
  | Json.null => false
  | Json.bool b => b
  | Json.num n => n != 0
  | Json.str s => s != ""
  | Json.arr _ => true
  | Json.obj _ => true

/-- Truthiness of a possibly-undefined value (`undefined` is falsy). -/
def truthyOpt : Option Json → Bool
  | none => false
  | some j => truthy j

/-- `Array.isArray(x)` on a possibly-undefined value. -/
def isArrayOpt : Option Json → Bool
  | some (Json.arr _) => true
  | _ => false

mutual

/-- JavaScript `String(x)` coercion, as performed by the template
literal `` `name='${schoolName}'` `` in the drive queries. -/
def jsToString : Json → String
  | Json.null => "null"
  | Json.bool true => "true"
  | Json.bool false => "false"
  | Json.num n => toString n
  | Json.str s => s
  | Json.obj _ => "[object Object]"
  | Json.arr xs => String.intercalate "," (jsArrElems xs)

/-- Array elements under `Array.prototype.join`: `null` renders as the
empty string, everything else via `String(_)`. -/
def jsArrElems : List Json → List String
  | [] => []
  | Json.null :: rest => "" :: jsArrElems rest
  | x :: rest => jsToString x :: jsArrElems rest

end

/-- One entry of the remote store: a folder or a file.  `content` is
meaningful only for files (`Json.null` for folders). -/
structure DriveFile where
  id : Nat
  name : String
  parent : Nat
  isFolder : Bool
  content : Json

/-- The remote store: entries in creation order plus the fresh-id
counter.  `drive.files.list` returns matches in this order, which fixes
the nondeterministic ordering of the real API to insertion order. -/
structure DriveState where
  files : List DriveFile
  nextId : Nat

/-- Query `'parent' in parents and name='n' and mimeType=folder`
(the `q` of `getOrCreateFolder`'s list call). -/
def listFoldersNamed (s : DriveState) (parent : Nat) (name : String) : List DriveFile :=
  s.files.filter (fun f => f.parent == parent && f.name == name && f.isFolder)

/-- Query `'parent' in parents and name='n'` — no mime-type constraint
(the `q` of `uploadJson` and `readJson`'s list calls). -/
def listFilesNamed (s : DriveState) (parent : Nat) (name : String) : List DriveFile :=
  s.files.filter (fun f => f.parent == parent && f.name == name)

/-- Query `name='n' and mimeType=folder` with no parent constraint
(the `q` of `getRootFolderId` and of `getOrCreateSchoolFolder`). -/
def listFoldersAnywhereNamed (s : DriveState) (name : String) : List DriveFile :=
  s.files.filter (fun f => f.name == name && f.isFolder)

/-- `drive.files.create`: appends a fresh entry and returns its id. -/
def createEntry (s : DriveState) (name : String) (parent : Nat) (fldr : Bool)
    (content : Json) : Nat × DriveState :=
  (s.nextId, ⟨s.files ++ [⟨s.nextId, name, parent, fldr, content⟩], s.nextId + 1⟩)

/-- `drive.files.delete({fileId})`. -/
def deleteFile (s : DriveState) (fid : Nat) : DriveState :=
  ⟨s.files.filter (fun f => f.id != fid), s.nextId⟩

/-- The fixed root folder name of `src/server.js`. -/
def ROOT_FOLDER_NAME : String := "UNSAT-SCHOOLS"

/-- `getRootFolderId` of `src/server.js`: drive-wide search for the
folder named `UNSAT-SCHOOLS`; throws when absent, else returns
`files[0].id`. -/
def getRootFolderId (s : DriveState) : Except String Nat :=
  match listFoldersAnywhereNamed s ROOT_FOLDER_NAME with
  | [] => Except.error "UNSAT-SCHOOLS folder not found in Shared Drive"
  | f :: _ => Except.ok f.id

/-- `getOrCreateFolder(name, parentId)` of `src/server.js`: search under
the parent; return `files[0].id` when found, else create and return the
new id. -/
def getOrCreateFolder (s : DriveState) (name : String) (parentId : Nat) :
    Nat × DriveState :=
  match listFoldersNamed s parentId name with
  | f :: _ => (f.id, s)
  | [] => createEntry s name parentId true Json.null

/-- `uploadJson(parentId, fileName, data)`: list matches, delete
`files[0]` if any, then create a fresh file with the payload. -/
def uploadJson (s : DriveState) (parentId : Nat) (fileName : String)
    (data : Json) : DriveState :=
  let s1 :=
    match listFilesNamed s parentId fileName with
    | f :: _ => deleteFile s f.id
    | [] => s
  (createEntry s1 fileName parentId false data).2

/-- `readJson(parentId, fileName)`: `[]` when no match, else the content
of `files[0]`. -/
def readJson (s : DriveState) (parentId : Nat) (fileName : String) : Json :=
  match listFilesNamed s parentId fileName with
  | [] => Json.arr []
  | f :: _ => f.content

/-- An HTTP response: a JSON body with a status (Express `res.json` /
`res.status(..).json`), or the framework's 404 for an unmatched path. -/
inductive Response where
  | json : Nat → Json → Response
  | notFound : Response

/-- The HTTP status carried by a response (Express's default 404 for
unmatched paths). -/
def Response.statusCode : Response → Nat
  | Response.json st _ => st
  | Response.notFound => 404

/-- `GET /drive-test` of `src/server.js`. -/
def driveTestHandler (s : DriveState) : Response × DriveState :=
  match getRootFolderId s with
  | Except.ok rootId =>
      (Response.json 200 (Json.obj
        [("success", Json.bool true),
         ("message", Json.str "Shared Drive connected"),
         ("rootFolderId", Json.num rootId)]), s)
  | Except.error e =>
      (Response.json 500 (Json.obj [("error", Json.str e)]), s)

/-- `POST /schools/save` of `src/server.js`.  `now` is the value of
`new Date().toISOString()` at the time of the request. -/
def saveHandler (s : DriveState) (body : Json) (now : String) :
    Response × DriveState :=
  let schoolName := lookupField body "schoolName"
  let students := lookupField body "students"
  if !truthyOpt schoolName || !isArrayOpt students then
    (Response.json 400 (Json.obj [("error", Json.str "Invalid payload")]), s)
  else
    match getRootFolderId s with
    | Except.error e =>
        (Response.json 500 (Json.obj [("error", Json.str e)]), s)
    | Except.ok rootId =>
        let nameStr := jsToString (schoolName.getD Json.null)
        let fs1 := getOrCreateFolder s nameStr rootId
        let s2 := uploadJson fs1.2 fs1.1 "students.json" (students.getD Json.null)
        let s3 := uploadJson s2 fs1.1 "meta.json"
          (Json.obj [("schoolName", schoolName.getD Json.null),
                     ("uploadedAt", Json.str now)])
        (Response.json 200 (Json.obj [("success", Json.bool true)]), s3)

/-- `GET /schools` of `src/server.js`: list immediate child folders of
the root and return their names; `[]` (status 200) on failure. -/
def listSchoolsHandler (s : DriveState) : Response × DriveState :=
  match getRootFolderId s with
  | Except.error _ => (Response.json 200 (Json.arr []), s)
  | Except.ok rootId =>
      let folders := s.files.filter (fun f => f.parent == rootId && f.isFolder)
      (Response.json 200 (Json.arr (folders.map (fun f => Json.str f.name))), s)

/-- `GET /schools/:schoolName` of `src/server.js`: resolve root,
get-or-create the school folder, read `students.json`; `[]` (status
200) when the root lookup fails. -/
def getSchoolHandler (s : DriveState) (schoolName : String) :
    Response × DriveState :=
  match getRootFolderId s with
  | Except.error _ => (Response.json 200 (Json.arr []), s)
  | Except.ok rootId =>
      let fs1 := getOrCreateFolder s schoolName rootId
      (Response.json 200 (readJson fs1.2 fs1.1 "students.json"), fs1.2)

/-- HTTP method. -/
inductive Method where
  | GET : Method
  | POST : Method

/-- The Express routing table of `src/server.js`, over decoded path
segments (Express matches `:schoolName` against one segment and decodes
it).  Routes are matched in registration order; anything else is the
framework 404. -/
def route (s : DriveState) (now : String) (m : Method) (path : List String)
    (body : Json) : Response × DriveState :=
  match m, path with
  | Method.GET, ["drive-test"] => driveTestHandler s
  | Method.POST, ["schools", "save"] => saveHandler s body now
  | Method.GET, ["schools"] => listSchoolsHandler s
  | Method.GET, ["schools", schoolName] => getSchoolHandler s schoolName
  | _, _ => (Response.notFound, s)

namespace VariantB

/-- `getDriveRootId` of `src/unnamed/part_000`: the configured
`SHARED_DRIVE_ID`, no store call. -/
def getDriveRootId (cfg : Nat) : Nat := cfg

/-- `getOrCreateSchoolFolder(schoolName)` of `src/unnamed/part_000`:
drive-wide search by name (no parent constraint); create directly under
the shared drive when absent. -/
def getOrCreateSchoolFolder (cfg : Nat) (s : DriveState) (schoolName : String) :
    Nat × DriveState :=
  match listFoldersAnywhereNamed s schoolName with
  | f :: _ => (f.id, s)
  | [] => createEntry s schoolName cfg true Json.null

/-- `GET /drive-test` of `src/unnamed/part_000`: the `try` block only
builds the response from configuration — no store call, no `await`. -/
def driveTestHandler (cfg : Nat) (s : DriveState) : Response × DriveState :=
  (Response.json 200 (Json.obj
    [("success", Json.bool true),
     ("message", Json.str "Shared Drive root ready"),
     ("driveId", Json.num cfg)]), s)

/-- `POST /schools/save` of `src/unnamed/part_000`: identical validation
to `src/server.js`; no root lookup (configured root). -/
def saveHandler (cfg : Nat) (s : DriveState) (body : Json) (now : String) :
    Response × DriveState :=
  let schoolName := lookupField body "schoolName"
  let students := lookupField body "students"
  if !truthyOpt schoolName || !isArrayOpt students then
    (Response.json 400 (Json.obj [("error", Json.str "Invalid payload")]), s)
  else
    let nameStr := jsToString (schoolName.getD Json.null)
    let fs1 := getOrCreateSchoolFolder cfg s nameStr
    let s2 := uploadJson fs1.2 fs1.1 "students.json" (students.getD Json.null)
    let s3 := uploadJson s2 fs1.1 "meta.json"
      (Json.obj [("schoolName", schoolName.getD Json.null),
                 ("uploadedAt", Json.str now)])
    (Response.json 200 (Json.obj [("success", Json.bool true)]), s3)

/-- `GET /schools/:schoolName` of `src/unnamed/part_000`. -/
def getSchoolHandler (cfg : Nat) (s : DriveState) (schoolName : String) :
    Response × DriveState :=
  let fs1 := getOrCreateSchoolFolder cfg s schoolName
  (Response.json 200 (readJson fs1.2 fs1.1 "students.json"), fs1.2)

end VariantB

/-- Store sanity on which the sequential round-trip properties rest; it
holds in any store produced by this service acting alone (no concurrent
writer, the spec's stated assumption):
* every id and every parent reference is below the fresh-id counter,
* ids are pairwise distinct,
* each folder holds at most one entry named `students.json` and at most
  one named `meta.json`. -/
structure WellFormed (s : DriveState) : Prop where
  idsBounded : ∀ f ∈ s.files, f.id < s.nextId
  idsNodup : (s.files.map (fun f => f.id)).Nodup
  parentsBounded : ∀ f ∈ s.files, f.parent < s.nextId
  noSelfParent : ∀ f ∈ s.files, f.id ≠ f.parent
  rootChildrenFolders : ∀ r, getRootFolderId s = Except.ok r →
      ∀ f ∈ s.files, f.parent = r → f.isFolder = true
  foldersUnique : ∀ f ∈ s.files, f.isFolder = true →
      (listFoldersNamed s f.parent f.name).length ≤ 1
  blobUnique : ∀ f ∈ s.files, f.isFolder = true →
      (listFilesNamed s f.id "students.json").length ≤ 1 ∧
      (listFilesNamed s f.id "meta.json").length ≤ 1

/-- The pre-provisioned root folder (`UNSAT-SCHOOLS` living in the
shared drive, which itself carries id 0). -/
def rootEntry : DriveFile :=
  ⟨1, ROOT_FOLDER_NAME, 0, true, Json.null⟩

/-- A store holding only the root folder. -/
def initState : DriveState := ⟨[rootEntry], 2⟩

/-- Sequential saves of a list of (school name, roster) requests through
`POST /schools/save` of `src/server.js`, all stamped with the same
upload time (the handler only records it in the metadata blob). -/
def saveMany (s : DriveState) (reqs : List (String × List Json))
    (now : String) : DriveState :=
  match reqs with
  | [] => s
  | (n, roster) :: rest =>
      saveMany
        (saveHandler s
          (Json.obj [("schoolName", Json.str n),
            ("students", Json.arr roster)]) now).2
        rest now

/-- The store holding only the root folder is well-formed. -/
theorem wf_initState : WellFormed initState := by
  refine ⟨by decide, by decide, by decide, by decide, ?_, by decide, by decide⟩
  intro r h f hf hp
  have h1 : getRootFolderId initState = Except.ok 1 := rfl
  rw [h1] at h
  injection h with h
  subst h
  have hf' : f = rootEntry := by simpa [initState] using hf
  subst hf'
  simp [rootEntry] at hp

/-- Membership characterisation of the parent-and-name folder query. -/
theorem mem_listFoldersNamed {s : DriveState} {p : Nat} {n : String}
    {f : DriveFile} :
    f ∈ listFoldersNamed s p n ↔
      f ∈ s.files ∧ f.parent = p ∧ f.name = n ∧ f.isFolder = true := by
  simp [listFoldersNamed, List.mem_filter, and_assoc]

/-- A successful root lookup names the id of a root-named folder entry. -/
theorem getRootFolderId_ok {s : DriveState} {r : Nat}
    (h : getRootFolderId s = Except.ok r) :
    ∃ f ∈ s.files, f.id = r ∧ f.name = ROOT_FOLDER_NAME ∧ f.isFolder = true := by
  unfold getRootFolderId at h
  cases hm : listFoldersAnywhereNamed s ROOT_FOLDER_NAME with
  | nil => rw [hm] at h; cases h
  | cons f rest =>
    rw [hm] at h
    injection h with h
    have hmem : f ∈ listFoldersAnywhereNamed s ROOT_FOLDER_NAME :=
      hm ▸ List.mem_cons_self f rest
    simp only [listFoldersAnywhereNamed, List.mem_filter, Bool.and_eq_true,
      beq_iff_eq] at hmem
    exact ⟨f, hmem.1, h, hmem.2.1, hmem.2.2⟩

/-- C10: in the configured-root variant, `GET /drive-test` touches no
store state and always answers success with the configured shared-drive
identifier; the 500 branch is unreachable. -/
theorem variantB_drive_test_never_fails (cfg : Nat) (s : DriveState) :
    VariantB.driveTestHandler cfg s =
      (Response.json 200 (Json.obj
        [("success", Json.bool true),
         ("message", Json.str "Shared Drive root ready"),
         ("driveId", Json.num cfg)]), s) ∧
    (VariantB.driveTestHandler cfg s).1.statusCode ≠ 500 :=
  ⟨rfl, by simp [VariantB.driveTestHandler, Response.statusCode]⟩

/-- C5 counterexample: the router answers `GET /health-check` with the
framework 404 — no health route is registered at that path. -/
theorem health_check_not_routed :
    route initState "2024-01-01T00:00:00.000Z" Method.GET ["health-check"]
        Json.null =
      (Response.notFound, initState) := rfl

/-- C5 amended: the health route is exposed at `GET /drive-test`; it
resolves the root container and on success responds
`{success:true, message, rootFolderId}` carrying the root's identifier,
and on failure responds 500 with the underlying error message. -/
theorem drive_test_route_spec (s : DriveState) (now : String) (body : Json) :
    (∀ r, getRootFolderId s = Except.ok r →
      route s now Method.GET ["drive-test"] body =
        (Response.json 200 (Json.obj
          [("success", Json.bool true),
           ("message", Json.str "Shared Drive connected"),
           ("rootFolderId", Json.num r)]), s)) ∧
    (∀ e, getRootFolderId s = Except.error e →
      route s now Method.GET ["drive-test"] body =
        (Response.json 500 (Json.obj [("error", Json.str e)]), s)) := by
  constructor <;> intro x h <;> simp [route, driveTestHandler, h]

/-- Witness for `drive_test_route_spec` at the root-only store. -/
theorem drive_test_route_spec_witness :
    route initState "t0" Method.GET ["drive-test"] Json.null =
      (Response.json 200 (Json.obj
        [("success", Json.bool true),
         ("message", Json.str "Shared Drive connected"),
         ("rootFolderId", Json.num 1)]), initState) :=
  (drive_test_route_spec initState "t0" Json.null).1 1 rfl

/-- C2: a request body with a missing/falsy `schoolName` or a non-array
`students` is answered 400 `{error:"Invalid payload"}` with the store
left untouched, in both variants of the save handler. -/
theorem save_invalid_payload_rejected (s : DriveState) (body : Json)
    (now : String) (cfg : Nat)
    (h : truthyOpt (lookupField body "schoolName") = false ∨
         isArrayOpt (lookupField body "students") = false) :
    saveHandler s body now =
      (Response.json 400 (Json.obj [("error", Json.str "Invalid payload")]), s) ∧
    VariantB.saveHandler cfg s body now =
      (Response.json 400 (Json.obj [("error", Json.str "Invalid payload")]), s) := by
  rcases h with h | h <;>
    exact ⟨by simp [saveHandler, h], by simp [VariantB.saveHandler, h]⟩

/-- Witness for `save_invalid_payload_rejected`: a body with no
`schoolName` field. -/
theorem save_invalid_payload_rejected_witness :
    saveHandler initState (Json.obj [("students", Json.arr [])]) "t0" =
      (Response.json 400 (Json.obj [("error", Json.str "Invalid payload")]),
       initState) ∧
    VariantB.saveHandler 0 initState (Json.obj [("students", Json.arr [])]) "t0" =
      (Response.json 400 (Json.obj [("error", Json.str "Invalid payload")]),
       initState) :=
  save_invalid_payload_rejected initState (Json.obj [("students", Json.arr [])])
    "t0" 0 (Or.inl rfl)

/-- C3 counterexample: a body whose `schoolName` is the number 7 — not a
non-empty string — still passes validation and is saved successfully
(the handler checks only JavaScript truthiness). -/
theorem numeric_school_name_accepted :
    (saveHandler initState
        (Json.obj [("schoolName", Json.num 7), ("students", Json.arr [])])
        "t0").1 =
      Response.json 200 (Json.obj [("success", Json.bool true)]) := rfl

/-- C3 amended: `POST /schools/save` rejects with 400 `Invalid payload`
exactly when the body's `schoolName` is falsy or its `students` is not
an array; every non-empty string `schoolName` with an array `students`
passes validation, but truthy non-string values pass as well. -/
theorem save_validation_iff (s : DriveState) (body : Json) (now : String) :
    (saveHandler s body now).1 =
        Response.json 400 (Json.obj [("error", Json.str "Invalid payload")]) ↔
      (truthyOpt (lookupField body "schoolName") = false ∨
       isArrayOpt (lookupField body "students") = false) := by
  cases ht : truthyOpt (lookupField body "schoolName") with
  | false => simp [saveHandler, ht]
  | true =>
    cases ha : isArrayOpt (lookupField body "students") with
    | false => simp [saveHandler, ht, ha]
    | true =>
      simp only [saveHandler, ht, ha]
      cases hr : getRootFolderId s <;> simp [hr]

/-- C6: `getOrCreateFolder` searches for a folder with the exact given
name under the given parent; when one exists it returns an existing
matching folder's identifier and leaves the store untouched, otherwise
it appends exactly one folder with that name under that parent and
returns the fresh identifier. -/
theorem getOrCreateFolder_spec (s : DriveState) (name : String) (parentId : Nat) :
    ((∃ f ∈ s.files, f.parent = parentId ∧ f.name = name ∧ f.isFolder = true) →
      (getOrCreateFolder s name parentId).2 = s ∧
      ∃ f ∈ s.files, f.parent = parentId ∧ f.name = name ∧ f.isFolder = true ∧
        (getOrCreateFolder s name parentId).1 = f.id) ∧
    ((¬ ∃ f ∈ s.files, f.parent = parentId ∧ f.name = name ∧ f.isFolder = true) →
      (getOrCreateFolder s name parentId).1 = s.nextId ∧
      (getOrCreateFolder s name parentId).2 =
        ⟨s.files ++ [⟨s.nextId, name, parentId, true, Json.null⟩],
         s.nextId + 1⟩) := by
  cases hm : listFoldersNamed s parentId name with
  | nil =>
    constructor
    · rintro ⟨f, hf, hp, hn, hd⟩
      have hmem : f ∈ listFoldersNamed s parentId name :=
        mem_listFoldersNamed.mpr ⟨hf, hp, hn, hd⟩
      rw [hm] at hmem
      cases hmem
    · intro _
      constructor <;> simp [getOrCreateFolder, hm, createEntry]
  | cons f rest =>
    have hf := mem_listFoldersNamed.mp (hm ▸ List.mem_cons_self f rest)
    constructor
    · intro _
      exact ⟨by simp [getOrCreateFolder, hm],
        f, hf.1, hf.2.1, hf.2.2.1, hf.2.2.2, by simp [getOrCreateFolder, hm]⟩
    · intro hno
      exact absurd ⟨f, hf.1, hf.2.1, hf.2.2.1, hf.2.2.2⟩ hno

/-- Witness for `getOrCreateFolder_spec`: no folder named
`Lincoln High` exists under the root, so one is created. -/
theorem getOrCreateFolder_spec_witness :
    (getOrCreateFolder initState "Lincoln High" 1).1 = initState.nextId ∧
    (getOrCreateFolder initState "Lincoln High" 1).2 =
      ⟨initState.files ++ [⟨initState.nextId, "Lincoln High", 1, true, Json.null⟩],
       initState.nextId + 1⟩ :=
  (getOrCreateFolder_spec initState "Lincoln High" 1).2 (by decide)

/-- C8: `GET /schools/:schoolName` always answers status 200; it answers
the empty array when the root lookup fails, and also when the roster
blob `students.json` is absent under the resolved school folder (which
covers names never saved). -/
theorem get_school_absent_returns_empty (s : DriveState) (name : String) :
    (getSchoolHandler s name).1.statusCode = 200 ∧
    (∀ e, getRootFolderId s = Except.error e →
      getSchoolHandler s name = (Response.json 200 (Json.arr []), s)) ∧
    (∀ r, getRootFolderId s = Except.ok r →
      listFilesNamed (getOrCreateFolder s name r).2 (getOrCreateFolder s name r).1
          "students.json" = [] →
      (getSchoolHandler s name).1 = Response.json 200 (Json.arr [])) := by
  refine ⟨?_, ?_, ?_⟩
  · cases hr : getRootFolderId s <;>
      simp [getSchoolHandler, hr, Response.statusCode]
  · intro e h
    simp [getSchoolHandler, h]
  · intro r h habs
    simp [getSchoolHandler, h, readJson, habs]

/-- Witness for `get_school_absent_returns_empty`: a never-saved name. -/
theorem get_school_absent_returns_empty_witness :
    (getSchoolHandler initState "Nowhere High").1 =
      Response.json 200 (Json.arr []) :=
  (get_school_absent_returns_empty initState "Nowhere High").2.2 1 rfl rfl

/-- C9: fetching a school whose folder is absent under the root mutates
the store by appending exactly that folder — a read with a write side
effect — while every other entry and the response (the empty roster)
are as if the store were untouched. -/
theorem get_school_creates_folder (s : DriveState) (name : String) (r : Nat)
    (hwf : WellFormed s)
    (hroot : getRootFolderId s = Except.ok r)
    (hnone : listFoldersNamed s r name = []) :
    getSchoolHandler s name =
      (Response.json 200 (Json.arr []),
       ⟨s.files ++ [⟨s.nextId, name, r, true, Json.null⟩], s.nextId + 1⟩) := by
  have hr : r < s.nextId := by
    obtain ⟨f, hf, hid, _, _⟩ := getRootFolderId_ok hroot
    exact hid ▸ hwf.idsBounded f hf
  have hread : listFilesNamed
      ⟨s.files ++ [⟨s.nextId, name, r, true, Json.null⟩], s.nextId + 1⟩
      s.nextId "students.json" = [] := by
    simp only [listFilesNamed, List.filter_append, List.append_eq_nil]
    constructor
    · rw [List.filter_eq_nil_iff]
      intro f hf
      have hpar : f.parent ≠ s.nextId := Nat.ne_of_lt (hwf.parentsBounded f hf)
      simp [hpar]
    · rw [List.filter_eq_nil_iff]
      intro f hf
      simp only [List.mem_singleton] at hf
      subst hf
      simp [Nat.ne_of_lt hr]
  simp [getSchoolHandler, hroot, getOrCreateFolder, hnone, createEntry,
    readJson, hread]

/-- Witness for `get_school_creates_folder` at the root-only store. -/
theorem get_school_creates_folder_witness :
    getSchoolHandler initState "Lincoln" =
      (Response.json 200 (Json.arr []),
       ⟨initState.files ++ [⟨initState.nextId, "Lincoln", 1, true, Json.null⟩],
        initState.nextId + 1⟩) :=
  get_school_creates_folder initState "Lincoln" 1 wf_initState rfl rfl

/-- Deleting only entries outside a filter and appending entries outside
it leaves the filter unchanged. -/
theorem filter_append_stable {α} (p q : α → Bool) (l extra : List α)
    (hq : ∀ a ∈ l, p a = true → q a = true)
    (hex : ∀ a ∈ extra, p a = false) :
    ((l.filter q) ++ extra).filter p = l.filter p := by
  rw [List.filter_append]
  have h1 : extra.filter p = [] :=
    List.filter_eq_nil_iff.mpr (fun a ha => by simp [hex a ha])
  rw [h1, List.append_nil, List.filter_filter]
  refine List.filter_congr ?_
  intro a ha
  cases hp : p a with
  | false => simp [hp]
  | true => simp [hp, hq a ha hp]

/-- Membership characterisation of the parent-and-name file query. -/
theorem mem_listFilesNamed {s : DriveState} {p : Nat} {n : String}
    {f : DriveFile} :
    f ∈ listFilesNamed s p n ↔ f ∈ s.files ∧ f.parent = p ∧ f.name = n := by
  simp [listFilesNamed, List.mem_filter, and_assoc]

/-- A successful root lookup, spelled out on the underlying query. -/
theorem getRootFolderId_ok_iff {s : DriveState} {r : Nat} :
    getRootFolderId s = Except.ok r ↔
      ∃ f t, listFoldersAnywhereNamed s ROOT_FOLDER_NAME = f :: t ∧ f.id = r := by
  unfold getRootFolderId
  cases hm : listFoldersAnywhereNamed s ROOT_FOLDER_NAME <;> simp

/-- Appending entries to the store cannot change a successful root
lookup (the first match stays first). -/
theorem getRootFolderId_append {s s' : DriveState} {r : Nat}
    (extra : List DriveFile)
    (hroot : getRootFolderId s = Except.ok r)
    (hfiles : s'.files = s.files ++ extra) :
    getRootFolderId s' = Except.ok r := by
  obtain ⟨f, t, hm, hid⟩ := getRootFolderId_ok_iff.mp hroot
  apply getRootFolderId_ok_iff.mpr
  simp only [listFoldersAnywhereNamed] at hm ⊢
  rw [hfiles, List.filter_append, hm]
  exact ⟨f, t ++ extra.filter (fun f => f.name == ROOT_FOLDER_NAME && f.isFolder),
    rfl, hid⟩

/-- Two stores whose root queries agree resolve the root identically. -/
theorem getRootFolderId_congr {s s' : DriveState}
    (h : listFoldersAnywhereNamed s' ROOT_FOLDER_NAME =
      listFoldersAnywhereNamed s ROOT_FOLDER_NAME) :
    getRootFolderId s' = getRootFolderId s := by
  unfold getRootFolderId
  rw [h]

/-- Everything `uploadJson(parentId, fileName, data)` does to the store:
some entries matching the target name under the target parent are
deleted (`q` is the survivor predicate), one fresh file carrying the
payload is appended, and afterwards that fresh file is the unique match
of the query — the search-delete-create overwrite contract. -/
theorem uploadJson_effect (s : DriveState) (p : Nat) (n : String) (d : Json)
    (hnodup : (s.files.map (fun f => f.id)).Nodup)
    (hlen : (listFilesNamed s p n).length ≤ 1) :
    ∃ q : DriveFile → Bool,
      (uploadJson s p n d).files =
        s.files.filter q ++ [⟨s.nextId, n, p, false, d⟩] ∧
      (uploadJson s p n d).nextId = s.nextId + 1 ∧
      (∀ x ∈ s.files, q x = false → x ∈ listFilesNamed s p n) ∧
      listFilesNamed (uploadJson s p n d) p n = [⟨s.nextId, n, p, false, d⟩] := by
  cases hm : listFilesNamed s p n with
  | nil =>
    refine ⟨fun _ => true, ?_, ?_, ?_, ?_⟩
    · simp [uploadJson, hm, createEntry]
    · simp [uploadJson, hm, createEntry]
    · intro x _ hx
      cases hx
    · show listFilesNamed (uploadJson s p n d) p n = _
      have hfiles : (uploadJson s p n d).files =
          s.files ++ [⟨s.nextId, n, p, false, d⟩] := by
        simp [uploadJson, hm, createEntry]
      simp only [listFilesNamed] at hm ⊢
      rw [hfiles, List.filter_append, hm]
      simp
  | cons g rest =>
    have hrest : rest = [] := by
      cases rest with
      | nil => rfl
      | cons _ _ => rw [hm] at hlen; simp at hlen
    subst hrest
    have hg : g ∈ s.files ∧ g.parent = p ∧ g.name = n :=
      mem_listFilesNamed.mp (hm ▸ List.mem_cons_self g [])
    refine ⟨fun x => x.id != g.id, ?_, ?_, ?_, ?_⟩
    · simp [uploadJson, hm, createEntry, deleteFile]
    · simp [uploadJson, hm, createEntry, deleteFile]
    · intro x hx hq
      have hid : x.id = g.id := by simpa using hq
      have hxg : x = g :=
        List.inj_on_of_nodup_map hnodup hx hg.1 hid
      rw [hxg]
      exact List.mem_cons_self g []
    · have hfiles : (uploadJson s p n d).files =
          (s.files.filter (fun x => x.id != g.id)) ++
            [⟨s.nextId, n, p, false, d⟩] := by
        simp [uploadJson, hm, createEntry, deleteFile]
      simp only [listFilesNamed] at hm ⊢
      rw [hfiles, List.filter_append, List.filter_comm, hm]
      simp

/-- Combined effect of the two `uploadJson` calls a save performs on a
school folder `fid`: some old entries named `students.json`/`meta.json`
under `fid` disappear (`q` is the survivor predicate), the two fresh
blobs are appended, and the roster blob is afterwards the unique
`students.json` match under `fid`. -/
theorem upload_pair_spec (s1 s3 : DriveState) (fid : Nat) (roster : List Json)
    (M : Json)
    (hs3 : s3 = uploadJson (uploadJson s1 fid "students.json" (Json.arr roster))
        fid "meta.json" M)
    (hnodup : (s1.files.map (fun f => f.id)).Nodup)
    (hids : ∀ f ∈ s1.files, f.id < s1.nextId)
    (hstud1 : (listFilesNamed s1 fid "students.json").length ≤ 1)
    (hmeta1 : (listFilesNamed s1 fid "meta.json").length ≤ 1) :
    ∃ q : DriveFile → Bool,
      s3.files = s1.files.filter q ++
        [⟨s1.nextId, "students.json", fid, false, Json.arr roster⟩,
         ⟨s1.nextId + 1, "meta.json", fid, false, M⟩] ∧
      s3.nextId = s1.nextId + 2 ∧
      (∀ x ∈ s1.files, q x = false →
        x.parent = fid ∧ (x.name = "students.json" ∨ x.name = "meta.json")) ∧
      listFilesNamed s3 fid "students.json" =
        [⟨s1.nextId, "students.json", fid, false, Json.arr roster⟩] ∧
      listFilesNamed s3 fid "meta.json" =
        [⟨s1.nextId + 1, "meta.json", fid, false, M⟩] := by
  obtain ⟨q1, hf1, hn1, hq1, hlist1⟩ :=
    uploadJson_effect s1 fid "students.json" (Json.arr roster) hnodup hstud1
  set s2 := uploadJson s1 fid "students.json" (Json.arr roster) with hs2
  set S : DriveFile := ⟨s1.nextId, "students.json", fid, false, Json.arr roster⟩
    with hS
  have hnodup2 : (s2.files.map (fun f => f.id)).Nodup := by
    rw [hf1, List.map_append]
    refine List.Nodup.append ?_ (by simp) ?_
    · exact List.Nodup.sublist
        ((List.filter_sublist s1.files).map (fun f => f.id)) hnodup
    · intro a ha hb
      simp only [hS, List.map_cons, List.map_nil, List.mem_singleton] at hb
      subst hb
      obtain ⟨f, hf, hfa⟩ := List.mem_map.mp ha
      have := hids f (List.mem_of_mem_filter hf)
      omega
  have hmeta2 : (listFilesNamed s2 fid "meta.json").length ≤ 1 := by
    have heq : listFilesNamed s2 fid "meta.json" =
        (listFilesNamed s1 fid "meta.json").filter q1 := by
      simp only [listFilesNamed]
      rw [hf1, List.filter_append, List.filter_comm]
      simp [hS]
    rw [heq]
    exact le_trans (List.length_filter_le _ _) hmeta1
  obtain ⟨q2, hf2, hn2, hq2, hlist2⟩ :=
    uploadJson_effect s2 fid "meta.json" M hnodup2 hmeta2
  have hq2S : q2 S = true := by
    by_contra hq2S
    have hSmem : S ∈ s2.files := by
      rw [hf1]
      exact List.mem_append_right _ (List.mem_cons_self S [])
    have := hq2 S hSmem (Bool.not_eq_true _ ▸ hq2S)
    have := (mem_listFilesNamed.mp this).2.2
    simp [hS] at this
  have hn2' : s2.nextId = s1.nextId + 1 := hn1
  refine ⟨fun x => q1 x && q2 x, ?_, ?_, ?_, ?_, ?_⟩
  · rw [hs3, hf2, hn2', hf1, List.filter_append, List.filter_filter]
    have hfq2S : List.filter q2 [S] = [S] := by simp [hq2S]
    rw [hfq2S, List.append_assoc]
    congr 1
    refine List.filter_congr ?_
    intro a _
    simp [Bool.and_comm]
  · rw [hs3, hn2, hn2']
  · intro x hx hq
    rcases Bool.and_eq_false_iff.mp hq with h1 | h2
    · have := mem_listFilesNamed.mp (hq1 x hx h1)
      exact ⟨this.2.1, Or.inl this.2.2⟩
    · cases hq1x : q1 x with
      | false =>
        have := mem_listFilesNamed.mp (hq1 x hx hq1x)
        exact ⟨this.2.1, Or.inl this.2.2⟩
      | true =>
        have hx2 : x ∈ s2.files := by
          rw [hf1]
          exact List.mem_append_left _ (List.mem_filter.mpr ⟨hx, hq1x⟩)
        have := mem_listFilesNamed.mp (hq2 x hx2 h2)
        exact ⟨this.2.1, Or.inr this.2.2⟩
  · have : listFilesNamed s3 fid "students.json" =
        (listFilesNamed s2 fid "students.json").filter q2 := by
      simp only [listFilesNamed]
      rw [hs3, hf2, List.filter_append, List.filter_comm]
      simp
    rw [this, hlist1]
    simp [hq2S]
  · rw [hn2'] at hlist2
    rw [hs3]
    exact hlist2

/-- The save pipeline's blob-upload pair into a school folder `f1`
(a folder entry whose parent is the root `r`) keeps the store
well-formed, keeps the root resolution and every folder query under the
root intact, and leaves the fresh roster blob as the unique
`students.json` match of the folder. -/
theorem wf_upload_pair (s1 s3 : DriveState) (f1 : DriveFile) (r : Nat)
    (roster : List Json) (M : Json)
    (hs3 : s3 = uploadJson (uploadJson s1 f1.id "students.json" (Json.arr roster))
        f1.id "meta.json" M)
    (hwf1 : WellFormed s1)
    (hf1 : f1 ∈ s1.files)
    (hfold : f1.isFolder = true)
    (hpar : f1.parent = r)
    (hroot1 : getRootFolderId s1 = Except.ok r) :
    WellFormed s3 ∧
    getRootFolderId s3 = Except.ok r ∧
    (∀ nm, listFoldersNamed s3 r nm = listFoldersNamed s1 r nm) ∧
    s3.files.filter (fun f => f.parent == r && f.isFolder) =
      s1.files.filter (fun f => f.parent == r && f.isFolder) ∧
    listFilesNamed s3 f1.id "students.json" =
      [⟨s1.nextId, "students.json", f1.id, false, Json.arr roster⟩] := by
  obtain ⟨hb1, hb2⟩ := hwf1.blobUnique f1 hf1 hfold
  obtain ⟨q, hfiles, hnext, hqchar, hstudl, hmetal⟩ :=
    upload_pair_spec s1 s3 f1.id roster M hs3 hwf1.idsNodup hwf1.idsBounded hb1 hb2
  have hflt : f1.id < s1.nextId := hwf1.idsBounded f1 hf1
  have hfner : f1.id ≠ r := hpar ▸ hwf1.noSelfParent f1 hf1
  have hqt : ∀ x ∈ s1.files, x.parent ≠ f1.id → q x = true := by
    intro x hx hp
    cases hq : q x with
    | true => rfl
    | false => exact absurd (hqchar x hx hq).1 hp
  set S : DriveFile := ⟨s1.nextId, "students.json", f1.id, false, Json.arr roster⟩
    with hS
  set Mf : DriveFile := ⟨s1.nextId + 1, "meta.json", f1.id, false, M⟩ with hMf
  have hrq : listFoldersAnywhereNamed s3 ROOT_FOLDER_NAME =
      listFoldersAnywhereNamed s1 ROOT_FOLDER_NAME := by
    simp only [listFoldersAnywhereNamed]
    rw [hfiles]
    refine filter_append_stable _ q s1.files [S, Mf] ?_ ?_
    · intro a ha hpa
      cases hq : q a with
      | true => rfl
      | false =>
        rw [Bool.and_eq_true, beq_iff_eq] at hpa
        rcases (hqchar a ha hq).2 with hnm | hnm <;>
          · rw [hnm] at hpa
            exact absurd hpa.1 (by decide)
    · intro a ha
      simp only [List.mem_cons, List.not_mem_nil, or_false] at ha
      rcases ha with ha | ha <;> · rw [ha]; simp [hS, hMf]
  have hroot3 : getRootFolderId s3 = Except.ok r :=
    (getRootFolderId_congr hrq).trans hroot1
  have hfoldpres : ∀ nm, listFoldersNamed s3 r nm = listFoldersNamed s1 r nm := by
    intro nm
    simp only [listFoldersNamed]
    rw [hfiles]
    refine filter_append_stable _ q s1.files [S, Mf] ?_ ?_
    · intro a ha hpa
      apply hqt a ha
      rw [Bool.and_eq_true, Bool.and_eq_true, beq_iff_eq] at hpa
      rw [hpa.1.1]
      exact Ne.symm hfner
    · intro a ha
      simp only [List.mem_cons, List.not_mem_nil, or_false] at ha
      rcases ha with ha | ha <;> · rw [ha]; simp [hS, hMf]
  have hchild : s3.files.filter (fun f => f.parent == r && f.isFolder) =
      s1.files.filter (fun f => f.parent == r && f.isFolder) := by
    rw [hfiles]
    refine filter_append_stable _ q s1.files [S, Mf] ?_ ?_
    · intro a ha hpa
      apply hqt a ha
      rw [Bool.and_eq_true, beq_iff_eq] at hpa
      rw [hpa.1]
      exact Ne.symm hfner
    · intro a ha
      simp only [List.mem_cons, List.not_mem_nil, or_false] at ha
      rcases ha with ha | ha <;> · rw [ha]; simp [hS, hMf]
  have hmem3 : ∀ x ∈ s3.files, x ∈ s1.files ∨ x = S ∨ x = Mf := by
    intro x hx
    rw [hfiles] at hx
    rcases List.mem_append.mp hx with h | h
    · exact Or.inl (List.mem_of_mem_filter h)
    · simp only [List.mem_cons, List.not_mem_nil, or_false] at h
      exact Or.inr h
  have hwf3 : WellFormed s3 := by
    refine ⟨?_, ?_, ?_, ?_, ?_, ?_, ?_⟩
    · intro x hx
      rw [hnext]
      rcases hmem3 x hx with h | h | h
      · have := hwf1.idsBounded x h; omega
      · rw [h]; simp only [hS]; omega
      · rw [h]; simp only [hMf]; omega
    · rw [hfiles, List.map_append]
      refine List.Nodup.append ?_ ?_ ?_
      · exact List.Nodup.sublist
          ((List.filter_sublist s1.files).map (fun f => f.id)) hwf1.idsNodup
      · simp [hS, hMf]
      · intro a ha hb
        obtain ⟨x, hx, hxa⟩ := List.mem_map.mp ha
        have hxa' : x.id = a := hxa
        have hxlt := hwf1.idsBounded x (List.mem_of_mem_filter hx)
        simp [hS, hMf] at hb
        rcases hb with hb | hb <;> omega
    · intro x hx
      rw [hnext]
      rcases hmem3 x hx with h | h | h
      · have := hwf1.parentsBounded x h; omega
      · rw [h]; simp only [hS]; omega
      · rw [h]; simp only [hMf]; omega
    · intro x hx
      rcases hmem3 x hx with h | h | h
      · exact hwf1.noSelfParent x h
      · rw [h]; simp only [hS]; omega
      · rw [h]; simp only [hMf]; omega
    · intro r' hr' x hx hp
      have hrr : r' = r := by
        rw [hroot3] at hr'
        injection hr' with hr'
        exact hr'.symm
      rw [hrr] at hp
      rcases hmem3 x hx with h | h | h
      · exact hwf1.rootChildrenFolders r hroot1 x h hp
      · rw [h] at hp
        simp only [hS] at hp
        exact absurd hp hfner
      · rw [h] at hp
        simp only [hMf] at hp
        exact absurd hp hfner
    · intro h hh hhf
      have hmemold : h ∈ s1.files := by
        rcases hmem3 h hh with hz | hz | hz
        · exact hz
        · rw [hz] at hhf; simp [hS] at hhf
        · rw [hz] at hhf; simp [hMf] at hhf
      have hsub : (listFoldersNamed s3 h.parent h.name).Sublist
          (listFoldersNamed s1 h.parent h.name) := by
        simp only [listFoldersNamed]
        rw [hfiles, List.filter_append]
        have hextra : List.filter
            (fun f => f.parent == h.parent && f.name == h.name && f.isFolder)
            [S, Mf] = [] := by
          simp [hS, hMf]
        rw [hextra, List.append_nil, List.filter_comm]
        exact List.filter_sublist _
      exact le_trans hsub.length_le (hwf1.foldersUnique h hmemold hhf)
    · intro h hh hhf
      have hmemold : h ∈ s1.files := by
        rcases hmem3 h hh with hz | hz | hz
        · exact hz
        · rw [hz] at hhf; simp [hS] at hhf
        · rw [hz] at hhf; simp [hMf] at hhf
      by_cases hid : h.id = f1.id
      · have hhf1 : h = f1 :=
          List.inj_on_of_nodup_map hwf1.idsNodup hmemold hf1 hid
        constructor
        · rw [hhf1, hstudl]; simp
        · rw [hhf1, hmetal]; simp
      · have hne' : f1.id ≠ h.id := fun hz => hid hz.symm
        constructor
        · have hsub : (listFilesNamed s3 h.id "students.json").Sublist
              (listFilesNamed s1 h.id "students.json") := by
            simp only [listFilesNamed]
            rw [hfiles, List.filter_append]
            have hextra : List.filter
                (fun f => f.parent == h.id && f.name == "students.json")
                [S, Mf] = [] := by
              simp [hS, hMf, hne']
            rw [hextra, List.append_nil, List.filter_comm]
            exact List.filter_sublist _
          exact le_trans hsub.length_le (hwf1.blobUnique h hmemold hhf).1
        · have hsub : (listFilesNamed s3 h.id "meta.json").Sublist
              (listFilesNamed s1 h.id "meta.json") := by
            simp only [listFilesNamed]
            rw [hfiles, List.filter_append]
            have hextra : List.filter
                (fun f => f.parent == h.id && f.name == "meta.json")
                [S, Mf] = [] := by
              simp [hS, hMf, hne']
            rw [hextra, List.append_nil, List.filter_comm]
            exact List.filter_sublist _
          exact le_trans hsub.length_le (hwf1.blobUnique h hmemold hhf).2
  exact ⟨hwf3, hroot3, hfoldpres, hchild, hstudl⟩

/-- Creating a school folder under the root (the create branch of
`getOrCreateFolder`) preserves well-formedness, keeps the root
resolution, and makes the new folder the unique folder match for its
name under the root. -/
theorem wf_insert_folder (s : DriveState) (name : String) (r : Nat)
    (hwf : WellFormed s)
    (hroot : getRootFolderId s = Except.ok r)
    (hm : listFoldersNamed s r name = []) :
    WellFormed ⟨s.files ++ [⟨s.nextId, name, r, true, Json.null⟩], s.nextId + 1⟩ ∧
    getRootFolderId
        ⟨s.files ++ [⟨s.nextId, name, r, true, Json.null⟩], s.nextId + 1⟩ =
      Except.ok r ∧
    listFoldersNamed
        ⟨s.files ++ [⟨s.nextId, name, r, true, Json.null⟩], s.nextId + 1⟩ r name =
      [⟨s.nextId, name, r, true, Json.null⟩] := by
  have hrlt : r < s.nextId := by
    obtain ⟨f0, hf0, hid0, _, _⟩ := getRootFolderId_ok hroot
    exact hid0 ▸ hwf.idsBounded f0 hf0
  set F : DriveFile := ⟨s.nextId, name, r, true, Json.null⟩ with hF
  set sB : DriveState := ⟨s.files ++ [F], s.nextId + 1⟩ with hsB
  have hm' : List.filter
      (fun f => f.parent == r && f.name == name && f.isFolder) s.files = [] := hm
  have hrootB : getRootFolderId sB = Except.ok r :=
    getRootFolderId_append [F] hroot rfl
  have hfoldB : listFoldersNamed sB r name = [F] := by
    simp only [listFoldersNamed, hsB, List.filter_append]
    rw [hm']
    simp [hF]
  have hmemB : ∀ x ∈ sB.files, x ∈ s.files ∨ x = F := by
    intro x hx
    simp only [hsB] at hx
    rcases List.mem_append.mp hx with h | h
    · exact Or.inl h
    · simp only [List.mem_singleton] at h
      exact Or.inr h
  have hnoneRootStud : ∀ bn, name = bn →
      listFilesNamed s r bn = [] := by
    intro bn hbn
    have : listFilesNamed s r bn =
        List.filter (fun f => f.parent == r && f.name == bn) s.files := rfl
    rw [this, List.filter_eq_nil_iff]
    intro x hx hpx
    rw [Bool.and_eq_true, beq_iff_eq, beq_iff_eq] at hpx
    have hxf : x.isFolder = true :=
      hwf.rootChildrenFolders r hroot x hx hpx.1
    have hxm : x ∈ listFoldersNamed s r name :=
      mem_listFoldersNamed.mpr ⟨hx, hpx.1, hbn ▸ hpx.2, hxf⟩
    rw [hm] at hxm
    cases hxm
  have hwfB : WellFormed sB := by
    refine ⟨?_, ?_, ?_, ?_, ?_, ?_, ?_⟩
    · intro x hx
      rcases hmemB x hx with h | h
      · have := hwf.idsBounded x h
        simp only [hsB]
        omega
      · rw [h]; simp [hF, hsB]
    · simp only [hsB, List.map_append]
      refine List.Nodup.append hwf.idsNodup (by simp) ?_
      intro a ha hb
      obtain ⟨x, hx, hxa⟩ := List.mem_map.mp ha
      have hxa' : x.id = a := hxa
      have := hwf.idsBounded x hx
      simp [hF] at hb
      omega
    · intro x hx
      rcases hmemB x hx with h | h
      · have := hwf.parentsBounded x h
        simp only [hsB]
        omega
      · rw [h]; simp only [hF, hsB]; omega
    · intro x hx
      rcases hmemB x hx with h | h
      · exact hwf.noSelfParent x h
      · rw [h]; simp only [hF]; omega
    · intro r' hr' x hx hp
      have hrr : r' = r := by
        rw [hrootB] at hr'
        injection hr' with hr'
        exact hr'.symm
      rw [hrr] at hp
      rcases hmemB x hx with h | h
      · exact hwf.rootChildrenFolders r hroot x h hp
      · rw [h]
    · intro h hh hhf
      have hsplit : listFoldersNamed sB h.parent h.name =
          listFoldersNamed s h.parent h.name ++
            List.filter
              (fun f => f.parent == h.parent && f.name == h.name && f.isFolder)
              [F] := by
        simp only [listFoldersNamed, hsB, List.filter_append]
      rw [hsplit, List.length_append]
      by_cases hFm : (F.parent == h.parent && F.name == h.name && F.isFolder) = true
      · have hkey : r = h.parent ∧ name = h.name := by
          rw [Bool.and_eq_true, Bool.and_eq_true, beq_iff_eq, beq_iff_eq] at hFm
          exact ⟨hFm.1.1, hFm.1.2⟩
        have hzero : listFoldersNamed s h.parent h.name = [] := by
          rw [← hkey.1, ← hkey.2]
          exact hm
        rw [hzero]
        simp only [List.length_nil, Nat.zero_add]
        exact le_trans (List.length_filter_le _ _) (by simp)
      · have hzeroF : List.filter
            (fun f => f.parent == h.parent && f.name == h.name && f.isFolder)
            [F] = [] := by
          rw [List.filter_eq_nil_iff]
          intro x hx
          simp only [List.mem_singleton] at hx
          rw [hx]
          exact fun hc => hFm hc
        rw [hzeroF]
        simp only [List.length_nil, Nat.add_zero]
        have hmem : h ∈ s.files := by
          rcases hmemB h hh with hz | hz
          · exact hz
          · exfalso
            apply hFm
            rw [hz]
            simp [hF]
        exact hwf.foldersUnique h hmem hhf
    · intro h hh hhf
      have hgen : ∀ bn : String, bn = "students.json" ∨ bn = "meta.json" →
          (listFilesNamed s h.id bn).length ≤ 1 →
          (listFilesNamed sB h.id bn).length ≤ 1 := by
        intro bn hbnblob hb
        have hsplit : listFilesNamed sB h.id bn =
            listFilesNamed s h.id bn ++
              List.filter (fun f => f.parent == h.id && f.name == bn) [F] := by
          simp only [listFilesNamed, hsB, List.filter_append]
        rw [hsplit, List.length_append]
        by_cases hFm : (F.parent == h.id && F.name == bn) = true
        · have hkey : r = h.id ∧ name = bn := by
            rw [Bool.and_eq_true, beq_iff_eq, beq_iff_eq] at hFm
            exact hFm
          have hzero : listFilesNamed s h.id bn = [] := by
            rw [← hkey.1]
            exact hnoneRootStud bn hkey.2
          rw [hzero]
          simp only [List.length_nil, Nat.zero_add]
          exact le_trans (List.length_filter_le _ _) (by simp)
        · have hzeroF : List.filter
              (fun f => f.parent == h.id && f.name == bn) [F] = [] := by
            rw [List.filter_eq_nil_iff]
            intro x hx
            simp only [List.mem_singleton] at hx
            rw [hx]
            exact fun hc => hFm hc
          rw [hzeroF]
          simp only [List.length_nil, Nat.add_zero]
          exact hb
      rcases hmemB h hh with hmem | hmem
      · exact ⟨hgen "students.json" (Or.inl rfl)
            (hwf.blobUnique h hmem hhf).1,
          hgen "meta.json" (Or.inr rfl) (hwf.blobUnique h hmem hhf).2⟩
      · have hzero : ∀ bn : String, listFilesNamed s F.id bn = [] := by
          intro bn
          have : listFilesNamed s F.id bn =
              List.filter (fun f => f.parent == F.id && f.name == bn) s.files := rfl
          rw [this, List.filter_eq_nil_iff]
          intro x hx hpx
          rw [Bool.and_eq_true, beq_iff_eq] at hpx
          have := hwf.parentsBounded x hx
          have hFid : F.id = s.nextId := rfl
          omega
        constructor
        · have := hgen "students.json" (Or.inl rfl) (by rw [hmem, hzero]; simp)
          exact this
        · have := hgen "meta.json" (Or.inr rfl) (by rw [hmem, hzero]; simp)
          exact this
  exact ⟨hwfB, hrootB, hfoldB⟩

/-- Full effect of one successful save: with a body carrying a non-empty
string `schoolName` and an array roster, on a well-formed store whose
root resolves to `r`, the handler answers success, and the resulting
store is well-formed, still resolves the root to `r`, resolves a school
folder for the name under `r`, and holds exactly the saved roster blob
in it. -/
theorem save_trace (s : DriveState) (body : Json) (name now : String)
    (roster : List Json) (r : Nat)
    (hwf : WellFormed s)
    (hname : lookupField body "schoolName" = some (Json.str name))
    (hne : name ≠ "")
    (hstud : lookupField body "students" = some (Json.arr roster))
    (hroot : getRootFolderId s = Except.ok r) :
    ∃ s3, saveHandler s body now =
        (Response.json 200 (Json.obj [("success", Json.bool true)]), s3) ∧
      WellFormed s3 ∧
      getRootFolderId s3 = Except.ok r ∧
      ∃ g rest, listFoldersNamed s3 r name = g :: rest ∧
        ∃ sid, listFilesNamed s3 g.id "students.json" =
          [⟨sid, "students.json", g.id, false, Json.arr roster⟩] := by
  have hns : jsToString (Json.str name) = name := by simp [jsToString]
  have hbn : (name != "") = true := bne_iff_ne.mpr hne
  have hsave : saveHandler s body now =
      (Response.json 200 (Json.obj [("success", Json.bool true)]),
       uploadJson
         (uploadJson (getOrCreateFolder s name r).2
           (getOrCreateFolder s name r).1 "students.json" (Json.arr roster))
         (getOrCreateFolder s name r).1 "meta.json"
         (Json.obj [("schoolName", Json.str name),
                    ("uploadedAt", Json.str now)])) := by
    simp only [saveHandler]
    rw [hname, hstud]
    simp [truthyOpt, truthy, isArrayOpt, hbn, hroot, hns]
  cases hm : listFoldersNamed s r name with
  | cons f rest =>
    have hf := mem_listFoldersNamed.mp (hm ▸ List.mem_cons_self f rest)
    have hgofc : getOrCreateFolder s name r = (f.id, s) := by
      simp [getOrCreateFolder, hm]
    rw [hgofc] at hsave
    obtain ⟨hwf3, hroot3, hfoldpres, hchild3, hstudl⟩ :=
      wf_upload_pair s _ f r roster
        (Json.obj [("schoolName", Json.str name), ("uploadedAt", Json.str now)])
        rfl hwf hf.1 hf.2.2.2 hf.2.1 hroot
    exact ⟨_, hsave, hwf3, hroot3, f, rest, (hfoldpres name).trans hm,
      s.nextId, hstudl⟩
  | nil =>
    obtain ⟨hwfB, hrootB, hfoldB⟩ := wf_insert_folder s name r hwf hroot hm
    set F : DriveFile := ⟨s.nextId, name, r, true, Json.null⟩ with hF
    set sB : DriveState := ⟨s.files ++ [F], s.nextId + 1⟩ with hsB
    have hgofc : getOrCreateFolder s name r = (s.nextId, sB) := by
      simp [getOrCreateFolder, hm, createEntry, hsB, hF]
    rw [hgofc] at hsave
    have hFmem : F ∈ sB.files := by simp [hsB]
    have hFid : F.id = s.nextId := rfl
    obtain ⟨hwf3, hroot3, hfoldpres, hchild3, hstudl⟩ :=
      wf_upload_pair sB _ F r roster
        (Json.obj [("schoolName", Json.str name), ("uploadedAt", Json.str now)])
        rfl hwfB hFmem rfl rfl hrootB
    rw [hFid] at hwf3 hroot3 hfoldpres hchild3 hstudl
    exact ⟨_, hsave, hwf3, hroot3, F, [], (hfoldpres name).trans hfoldB,
      sB.nextId, hstudl⟩

/-- A fetch of `name` against a store whose folder query under the root
heads at `g`, with a unique roster blob under `g`, returns exactly that
roster and leaves the store unchanged. -/
theorem get_returns_roster (s3 : DriveState) (name : String) (r : Nat)
    (g : DriveFile) (rest : List DriveFile) (sid : Nat) (roster : List Json)
    (hroot : getRootFolderId s3 = Except.ok r)
    (hfold : listFoldersNamed s3 r name = g :: rest)
    (hstudl : listFilesNamed s3 g.id "students.json" =
      [⟨sid, "students.json", g.id, false, Json.arr roster⟩]) :
    getSchoolHandler s3 name = (Response.json 200 (Json.arr roster), s3) := by
  simp [getSchoolHandler, hroot, getOrCreateFolder, hfold, readJson, hstudl]

/-- C1: round trip — if a save of a body with non-empty string
`schoolName` and array `students` responds `{success:true}` (from a
well-formed store, no concurrent writer), the subsequent
`GET /schools/:schoolName` with the same name responds with an array
content-equal to the saved one. -/
theorem save_then_get_roundtrip (s : DriveState) (body : Json)
    (name now now2 : String) (roster : List Json)
    (hwf : WellFormed s)
    (hname : lookupField body "schoolName" = some (Json.str name))
    (hne : name ≠ "")
    (hstud : lookupField body "students" = some (Json.arr roster))
    (hsucc : (saveHandler s body now).1 =
      Response.json 200 (Json.obj [("success", Json.bool true)])) :
    route (saveHandler s body now).2 now2 Method.GET ["schools", name]
        Json.null =
      (Response.json 200 (Json.arr roster), (saveHandler s body now).2) := by
  cases hr : getRootFolderId s with
  | error e =>
    exfalso
    have hbn : (name != "") = true := bne_iff_ne.mpr hne
    have h500 : (saveHandler s body now).1 =
        Response.json 500 (Json.obj [("error", Json.str e)]) := by
      simp only [saveHandler]
      rw [hname, hstud]
      simp [truthyOpt, truthy, isArrayOpt, hbn, hr]
    rw [h500] at hsucc
    injection hsucc with h1 h2
    exact absurd h1 (by decide)
  | ok r =>
    obtain ⟨s3, hsave, hwf3, hroot3, g, rest, hfold, sid, hstudl⟩ :=
      save_trace s body name now roster r hwf hname hne hstud hr
    rw [hsave]
    show route s3 now2 Method.GET ["schools", name] Json.null =
      (Response.json 200 (Json.arr roster), s3)
    have hget := get_returns_roster s3 name r g rest sid roster hroot3 hfold
      hstudl
    simpa [route] using hget

/-- Witness for `save_then_get_roundtrip`: the spec's own example. -/
theorem save_then_get_roundtrip_witness :
    route (saveHandler initState
        (Json.obj [("schoolName", Json.str "Lincoln High"),
          ("students", Json.arr [Json.obj
            [("id", Json.num 1), ("name", Json.str "Ann")]])]) "t1").2
      "t2" Method.GET ["schools", "Lincoln High"] Json.null =
      (Response.json 200 (Json.arr [Json.obj
          [("id", Json.num 1), ("name", Json.str "Ann")]]),
       (saveHandler initState
        (Json.obj [("schoolName", Json.str "Lincoln High"),
          ("students", Json.arr [Json.obj
            [("id", Json.num 1), ("name", Json.str "Ann")]])]) "t1").2) :=
  save_then_get_roundtrip initState
    (Json.obj [("schoolName", Json.str "Lincoln High"),
      ("students", Json.arr [Json.obj
        [("id", Json.num 1), ("name", Json.str "Ann")]])])
    "Lincoln High" "t1" "t2"
    [Json.obj [("id", Json.num 1), ("name", Json.str "Ann")]]
    wf_initState rfl (by decide) rfl rfl

/-- C4: overwrite semantics — after two successful sequential saves to
the same school name the stored roster is exactly the second array (a
fetch returns it; no merge), and the write primitive first deletes the
existing file of the target name under the folder, if any, then
creates a fresh file carrying the payload, which is afterwards the
unique match. -/
theorem save_twice_overwrites (s : DriveState) (body1 body2 : Json)
    (name now1 now2 now3 : String) (r1 r2 : List Json)
    (hwf : WellFormed s)
    (hname1 : lookupField body1 "schoolName" = some (Json.str name))
    (hname2 : lookupField body2 "schoolName" = some (Json.str name))
    (hne : name ≠ "")
    (hstud1 : lookupField body1 "students" = some (Json.arr r1))
    (hstud2 : lookupField body2 "students" = some (Json.arr r2))
    (hsucc1 : (saveHandler s body1 now1).1 =
      Response.json 200 (Json.obj [("success", Json.bool true)]))
    (hsucc2 : (saveHandler (saveHandler s body1 now1).2 body2 now2).1 =
      Response.json 200 (Json.obj [("success", Json.bool true)])) :
    route (saveHandler (saveHandler s body1 now1).2 body2 now2).2 now3
        Method.GET ["schools", name] Json.null =
      (Response.json 200 (Json.arr r2),
       (saveHandler (saveHandler s body1 now1).2 body2 now2).2) ∧
    (∀ (t : DriveState) (p : Nat) (n : String) (d : Json),
      (∀ f ∈ t.files, f.id < t.nextId) →
      ((t.files.map (fun f => f.id)).Nodup) →
      (listFilesNamed t p n).length ≤ 1 →
      (∀ gx ∈ listFilesNamed t p n, gx ∉ (uploadJson t p n d).files) ∧
      listFilesNamed (uploadJson t p n d) p n = [⟨t.nextId, n, p, false, d⟩]) := by
  constructor
  · cases hr : getRootFolderId s with
    | error e =>
      exfalso
      have hbn : (name != "") = true := bne_iff_ne.mpr hne
      have h500 : (saveHandler s body1 now1).1 =
          Response.json 500 (Json.obj [("error", Json.str e)]) := by
        simp only [saveHandler]
        rw [hname1, hstud1]
        simp [truthyOpt, truthy, isArrayOpt, hbn, hr]
      rw [h500] at hsucc1
      injection hsucc1 with h1 h2
      exact absurd h1 (by decide)
    | ok r =>
      obtain ⟨s3, hsave1, hwf3, hroot3, g1, rest1, hfold1, sid1, hstudl1⟩ :=
        save_trace s body1 name now1 r1 r hwf hname1 hne hstud1 hr
      rw [hsave1]
      obtain ⟨s6, hsave2, hwf6, hroot6, g2, rest2, hfold2, sid2, hstudl2⟩ :=
        save_trace s3 body2 name now2 r2 r hwf3 hname2 hne hstud2 hroot3
      show route (saveHandler s3 body2 now2).2 now3 Method.GET
          ["schools", name] Json.null =
        (Response.json 200 (Json.arr r2), (saveHandler s3 body2 now2).2)
      rw [hsave2]
      show route s6 now3 Method.GET ["schools", name] Json.null =
        (Response.json 200 (Json.arr r2), s6)
      have hget := get_returns_roster s6 name r g2 rest2 sid2 r2 hroot6 hfold2
        hstudl2
      simpa [route] using hget
  · intro t p n d hbd hnd hlen
    constructor
    · intro gx hgx
      cases hm : listFilesNamed t p n with
      | nil => rw [hm] at hgx; cases hgx
      | cons g0 rest0 =>
        have hrest : rest0 = [] := by
          cases rest0 with
          | nil => rfl
          | cons _ _ => rw [hm] at hlen; simp at hlen
        subst hrest
        rw [hm] at hgx
        simp only [List.mem_singleton] at hgx
        subst hgx
        have hfiles : (uploadJson t p n d).files =
            (t.files.filter (fun x => x.id != gx.id)) ++
              [⟨t.nextId, n, p, false, d⟩] := by
          simp [uploadJson, hm, createEntry, deleteFile]
        rw [hfiles]
        intro hmem
        rcases List.mem_append.mp hmem with h | h
        · have := List.mem_filter.mp h
          simp at this
        · simp only [List.mem_singleton] at h
          have hg0 : gx ∈ t.files :=
            (mem_listFilesNamed.mp (hm ▸ List.mem_cons_self gx [])).1
          have hlt := hbd gx hg0
          rw [h] at hlt
          simp at hlt
    · obtain ⟨q, hf, hn, hq, hlist⟩ := uploadJson_effect t p n d hnd hlen
      exact hlist

/-- Witness for `save_twice_overwrites`: save `[1]` then `[2]` under the
same name; the fetch returns `[2]`. -/
theorem save_twice_overwrites_witness :
    route (saveHandler (saveHandler initState
        (Json.obj [("schoolName", Json.str "Lincoln High"),
          ("students", Json.arr [Json.num 1])]) "t1").2
        (Json.obj [("schoolName", Json.str "Lincoln High"),
          ("students", Json.arr [Json.num 2])]) "t2").2 "t3"
      Method.GET ["schools", "Lincoln High"] Json.null =
      (Response.json 200 (Json.arr [Json.num 2]),
       (saveHandler (saveHandler initState
          (Json.obj [("schoolName", Json.str "Lincoln High"),
            ("students", Json.arr [Json.num 1])]) "t1").2
          (Json.obj [("schoolName", Json.str "Lincoln High"),
            ("students", Json.arr [Json.num 2])]) "t2").2) :=
  (save_twice_overwrites initState
    (Json.obj [("schoolName", Json.str "Lincoln High"),
      ("students", Json.arr [Json.num 1])])
    (Json.obj [("schoolName", Json.str "Lincoln High"),
      ("students", Json.arr [Json.num 2])])
    "Lincoln High" "t1" "t2" "t3" [Json.num 1] [Json.num 2]
    wf_initState rfl rfl (by decide) rfl rfl rfl rfl).1

/-- Effect of saving a name that has no folder under the root yet: the
handler answers success, the store stays well-formed, the root still
resolves to `r`, the new school folder is appended to the root's child
folders, and folder queries for other names are untouched. -/
theorem save_trace_fresh (s : DriveState) (name now : String)
    (roster : List Json) (r : Nat)
    (hwf : WellFormed s) (hne : name ≠ "")
    (hroot : getRootFolderId s = Except.ok r)
    (hm : listFoldersNamed s r name = []) :
    ∃ s3, saveHandler s
        (Json.obj [("schoolName", Json.str name),
          ("students", Json.arr roster)]) now =
        (Response.json 200 (Json.obj [("success", Json.bool true)]), s3) ∧
      WellFormed s3 ∧
      getRootFolderId s3 = Except.ok r ∧
      s3.files.filter (fun f => f.parent == r && f.isFolder) =
        s.files.filter (fun f => f.parent == r && f.isFolder) ++
          [⟨s.nextId, name, r, true, Json.null⟩] ∧
      (∀ nm, nm ≠ name → listFoldersNamed s3 r nm = listFoldersNamed s r nm) := by
  have hns : jsToString (Json.str name) = name := by simp [jsToString]
  have hbn : (name != "") = true := bne_iff_ne.mpr hne
  have hsave : saveHandler s
      (Json.obj [("schoolName", Json.str name), ("students", Json.arr roster)])
      now =
      (Response.json 200 (Json.obj [("success", Json.bool true)]),
       uploadJson
         (uploadJson (getOrCreateFolder s name r).2
           (getOrCreateFolder s name r).1 "students.json" (Json.arr roster))
         (getOrCreateFolder s name r).1 "meta.json"
         (Json.obj [("schoolName", Json.str name),
                    ("uploadedAt", Json.str now)])) := by
    simp only [saveHandler]
    simp [lookupField, truthyOpt, truthy, isArrayOpt, hbn, hroot, hns]
  obtain ⟨hwfB, hrootB, hfoldB⟩ := wf_insert_folder s name r hwf hroot hm
  set F : DriveFile := ⟨s.nextId, name, r, true, Json.null⟩ with hF
  set sB : DriveState := ⟨s.files ++ [F], s.nextId + 1⟩ with hsB
  have hgofc : getOrCreateFolder s name r = (s.nextId, sB) := by
    simp [getOrCreateFolder, hm, createEntry, hsB, hF]
  rw [hgofc] at hsave
  have hFmem : F ∈ sB.files := by simp [hsB]
  have hFid : F.id = s.nextId := rfl
  obtain ⟨hwf3, hroot3, hfoldpres, hchild3, hstudl⟩ :=
    wf_upload_pair sB _ F r roster
      (Json.obj [("schoolName", Json.str name), ("uploadedAt", Json.str now)])
      rfl hwfB hFmem rfl rfl hrootB
  rw [hFid] at hwf3 hroot3 hfoldpres hchild3 hstudl
  have hchildB : sB.files.filter (fun f => f.parent == r && f.isFolder) =
      s.files.filter (fun f => f.parent == r && f.isFolder) ++ [F] := by
    simp only [hsB, List.filter_append]
    congr 1
    simp [hF]
  have hpresB : ∀ nm, nm ≠ name →
      listFoldersNamed sB r nm = listFoldersNamed s r nm := by
    intro nm hnm
    simp only [listFoldersNamed, hsB, List.filter_append]
    have hnn : name ≠ nm := fun h => hnm h.symm
    have : List.filter (fun f => f.parent == r && f.name == nm && f.isFolder)
        [F] = [] := by
      simp [hF, hnn]
    rw [this, List.append_nil]
  exact ⟨_, hsave, hwf3, hroot3, hchild3.trans hchildB,
    fun nm hnm => (hfoldpres nm).trans (hpresB nm hnm)⟩

/-- Folding `POST /schools/save` over a list of requests with pairwise
distinct, non-empty, not-yet-present school names keeps the store
well-formed, keeps the root resolution, and appends exactly one child
folder per request (in request order) to the root's children. -/
theorem saveMany_trace (reqs : List (String × List Json)) :
    ∀ (s : DriveState) (now : String) (r : Nat),
      WellFormed s →
      getRootFolderId s = Except.ok r →
      (reqs.map Prod.fst).Nodup →
      (∀ pr ∈ reqs, pr.1 ≠ "") →
      (∀ pr ∈ reqs, listFoldersNamed s r pr.1 = []) →
      WellFormed (saveMany s reqs now) ∧
      getRootFolderId (saveMany s reqs now) = Except.ok r ∧
      ∃ extra : List DriveFile,
        (saveMany s reqs now).files.filter
            (fun f => f.parent == r && f.isFolder) =
          s.files.filter (fun f => f.parent == r && f.isFolder) ++ extra ∧
        extra.map (fun f => f.name) = reqs.map Prod.fst := by
  induction reqs with
  | nil =>
    intro s now r hwf hroot _ _ _
    exact ⟨hwf, hroot, [], by simp [saveMany], by simp⟩
  | cons pr rest ih =>
    intro s now r hwf hroot hnodup hne hfresh
    obtain ⟨n, roster⟩ := pr
    obtain ⟨s3, hsave, hwf3, hroot3, hchild, hpres⟩ :=
      save_trace_fresh s n now roster r hwf
        (hne (n, roster) (List.mem_cons_self _ _)) hroot
        (hfresh (n, roster) (List.mem_cons_self _ _))
    have hstep : saveMany s ((n, roster) :: rest) now = saveMany s3 rest now := by
      simp [saveMany, hsave]
    rw [hstep]
    have hnodup' : (rest.map Prod.fst).Nodup :=
      (List.nodup_cons.mp (by simpa using hnodup)).2
    have hnmem : n ∉ rest.map Prod.fst :=
      (List.nodup_cons.mp (by simpa using hnodup)).1
    have hne' : ∀ q ∈ rest, q.1 ≠ "" :=
      fun q h => hne q (List.mem_cons_of_mem _ h)
    have hfresh' : ∀ q ∈ rest, listFoldersNamed s3 r q.1 = [] := by
      intro q h
      have hqn : q.1 ≠ n := by
        intro hq
        exact hnmem (hq ▸ List.mem_map_of_mem Prod.fst h)
      rw [hpres q.1 hqn]
      exact hfresh q (List.mem_cons_of_mem _ h)
    obtain ⟨hwfN, hrootN, extra, hchildN, hnamesN⟩ :=
      ih s3 now r hwf3 hroot3 hnodup' hne' hfresh'
    refine ⟨hwfN, hrootN, ⟨s.nextId, n, r, true, Json.null⟩ :: extra, ?_, ?_⟩
    · rw [hchildN, hchild, List.append_assoc]
      rfl
    · simp [hnamesN]

/-- C7: `GET /schools` returns exactly the names of the immediate child
folders of the root; in particular, after saving any number of distinct
non-empty school names from the root-only store, it returns precisely
those names, each exactly once, in save order, and nothing else. -/
theorem list_schools_after_saves (reqs : List (String × List Json))
    (now now2 : String)
    (hnodup : (reqs.map Prod.fst).Nodup)
    (hne : ∀ pr ∈ reqs, pr.1 ≠ "") :
    (∀ (s : DriveState) (rootId : Nat), getRootFolderId s = Except.ok rootId →
      (listSchoolsHandler s).1 = Response.json 200 (Json.arr
        ((s.files.filter (fun f => f.parent == rootId && f.isFolder)).map
          (fun f => Json.str f.name)))) ∧
    (route (saveMany initState reqs now) now2 Method.GET ["schools"]
        Json.null).1 =
      Response.json 200 (Json.arr ((reqs.map Prod.fst).map Json.str)) := by
  constructor
  · intro s rootId h
    simp [listSchoolsHandler, h]
  · obtain ⟨hwfN, hrootN, extra, hchild, hnames⟩ :=
      saveMany_trace reqs initState now 1 wf_initState rfl hnodup hne
        (fun pr _ => rfl)
    show (listSchoolsHandler (saveMany initState reqs now)).1 = _
    simp only [listSchoolsHandler, hrootN]
    rw [hchild]
    have hinit : initState.files.filter
        (fun f => f.parent == 1 && f.isFolder) = [] := rfl
    rw [hinit, List.nil_append, ← hnames, List.map_map]
    rfl

/-- Witness for `list_schools_after_saves`: two saves, two names back. -/
theorem list_schools_after_saves_witness :
    (route (saveMany initState [("A", []), ("B", [Json.num 1])] "t1") "t2"
        Method.GET ["schools"] Json.null).1 =
      Response.json 200 (Json.arr [Json.str "A", Json.str "B"]) :=
  (list_schools_after_saves [("A", []), ("B", [Json.num 1])] "t1" "t2"
    (by decide) (by decide)).2

/-- Witness for `save_validation_iff` at a body missing `schoolName`. -/
theorem save_validation_iff_witness :
    ((saveHandler initState (Json.obj [("students", Json.arr [])]) "t0").1 =
        Response.json 400 (Json.obj [("error", Json.str "Invalid payload")])) ↔
      (truthyOpt (lookupField (Json.obj [("students", Json.arr [])])
          "schoolName") = false ∨
       isArrayOpt (lookupField (Json.obj [("students", Json.arr [])])
          "students") = false) :=
  save_validation_iff initState (Json.obj [("students", Json.arr [])]) "t0"
